import Mathlib

/-!
Shallow embedding of the bang URL-shortening service (Go, valkey-backed).

The store is modelled as an association list from slugs to lists of strings
with the list semantics the handlers use: RPUSH appends elements under a key
(creating the key when absent), LINDEX reads one position (failing on a
missing key or an out-of-range index, which the Go client surfaces as an
error on ToString), LSET overwrites one in-range position, and DEL removes
the key.  Each HTTP handler becomes a pure function from the store and its
request inputs to an HTTP-level outcome and the resulting store; the random
strings that crypto/rand feeds into RandStr are injected as parameters.
-/

namespace Bang

/-- Outcome of a handler, mirroring the fiber error statuses the Go code
uses: a success payload, a 400 with its message, a bare 401 and a 500 with
its message. -/
inductive HResult (α : Type) where
  | ok : α → HResult α
  | badRequest : String → HResult α
  | unauthorized : HResult α
  | serverError : String → HResult α

deriving instance DecidableEq for HResult

/-- The valkey store: keys are slugs, each holding an ordered list. -/
def Store : Type := List (String × List String)

/-- First entry wins, as in a key-value store with unique keys. -/
def lookup : Store → String → Option (List String)
  | [], _ => none
  | (k, v) :: rest, key => if k = key then some v else lookup rest key

/-- RPUSH key els: append to the list under the key, creating it if absent. -/
def rpush : Store → String → List String → Store
  | [], k, els => [(k, els)]
  | (k', v) :: rest, k, els =>
    if k' = k then (k', v ++ els) :: rest else (k', v) :: rpush rest k els

/-- LINDEX key i: none when the key is missing or the index out of range. -/
def lindex (st : Store) (k : String) (i : Nat) : Option String :=
  (lookup st k).bind fun l => l[i]?

/-- Replace the list stored under a key, keeping entry positions. -/
def setList : Store → String → List String → Store
  | [], _, _ => []
  | (k', v) :: rest, k, l =>
    if k' = k then (k, l) :: setList rest k l else (k', v) :: setList rest k l

/-- LSET key i v: errors (none) on a missing key or out-of-range index. -/
def lset (st : Store) (k : String) (i : Nat) (v : String) : Option Store :=
  match lookup st k with
  | none => none
  | some l => if i < l.length then some (setList st k (l.set i v)) else none

/-- DEL key: drop the key and its list. -/
def del : Store → String → Store
  | [], _ => []
  | (k', v) :: rest, k =>
    if k' = k then del rest k else (k', v) :: del rest k

/-- The store is well formed when every slug occurs at most once. -/
def wfStore (st : Store) : Prop := (st.map Prod.fst).Nodup

/-! ## RandStr -/

/-- The 62-character alphabet of the Go constant chars. -/
def chars : List Char :=
  "abcdefghijklmnopqrstuvwxyzABCDEFGHIJKLMNOPQRSTUVWXYZ0123456789".toList

theorem chars_length : chars.length = 62 := by decide

/-- One output character of RandStr: chars[b % 62] for a random byte b. -/
def randChar (b : Nat) : Char :=
  chars.get ⟨b % 62, by rw [chars_length]; exact Nat.mod_lt _ (by decide)⟩

/-- RandStr with its random bytes injected: the successful branch maps each
byte b to chars[b % len(chars)]. -/
def RandStr (bs : List Nat) : String := String.mk (bs.map randChar)

/-! ## ValidateUrl

The Go source compiles the regular expression
http(s)?://[a-zA-Z0-9.-]+\.[a-zA-Z]{2,} anchored at both ends (written as an
alternation of the http and https forms) and asks whether the string matches.
Matching an anchored regex is the existence of a decomposition, which the
functions below decide by searching every possible position of the dot that
ends the host part. -/

/-- Character class [a-zA-Z0-9.-]. -/
def isHostChar (c : Char) : Bool := c.isAlpha || c.isDigit || c == '.' || c == '-'

/-- Character class [a-zA-Z]. -/
def isTldChar (c : Char) : Bool := c.isAlpha

/-- Does position i hold the dot of a split host.tld covering all of cs? -/
def dotSplitAt (cs : List Char) (i : Nat) : Bool :=
  decide (cs[i]? = some '.') && decide (0 < i) &&
    (cs.take i).all isHostChar &&
    decide (2 ≤ cs.length - (i + 1)) && (cs.drop (i + 1)).all isTldChar

/-- Anchored match of [a-zA-Z0-9.-]+\.[a-zA-Z]{2,} against cs. -/
def hostTldMatch (cs : List Char) : Bool :=
  (List.range cs.length).any (dotSplitAt cs)

/-- Strip an expected literal from the front, or fail. -/
def dropLit : List Char → List Char → Option (List Char)
  | cs, [] => some cs
  | [], _ :: _ => none
  | c :: cs, l :: ls => if c = l then dropLit cs ls else none

/-- The Go ValidateUrl: the anchored alternation of the http and https
scheme followed by host, dot and a top-level label of two or more letters. -/
def ValidateUrl (str : String) : Bool :=
  (match dropLit str.toList "http://".toList with
   | some rest => hostTldMatch rest
   | none => false) ||
  (match dropLit str.toList "https://".toList with
   | some rest => hostTldMatch rest
   | none => false)

/-! ## The counter arithmetic of the increment goroutine

The goroutine parses the stored counter with strconv.Atoi and drops the
error, so a malformed string counts as 0 and an out-of-range decimal is
clamped to the int64 bounds; the increment itself is 64-bit signed addition,
which wraps. -/

/-- Value of a nonempty digit string. -/
def digitsVal (cs : List Char) : Nat :=
  cs.foldl (fun a c => a * 10 + (c.toNat - 48)) 0

/-- Clamp to the int64 range, as strconv.ParseInt does on a range error. -/
def clamp64 (z : Int) : Int :=
  if z < -(2 ^ 63) then -(2 ^ 63) else if 2 ^ 63 - 1 < z then 2 ^ 63 - 1 else z

/-- Wrap into the int64 range, the overflow behaviour of Go addition. -/
def wrap64 (z : Int) : Int := (z + 2 ^ 63) % 2 ^ 64 - 2 ^ 63

/-- strconv.Atoi with the error ignored: optional sign, else digits only;
anything malformed yields 0 and an overflowing decimal is clamped. -/
def goAtoi (s : String) : Int :=
  match s.toList with
  | '+' :: cs =>
    if cs ≠ [] ∧ cs.all Char.isDigit then clamp64 (digitsVal cs) else 0
  | '-' :: cs =>
    if cs ≠ [] ∧ cs.all Char.isDigit then clamp64 (-(digitsVal cs : Int)) else 0
  | cs =>
    if cs ≠ [] ∧ cs.all Char.isDigit then clamp64 (digitsVal cs) else 0

/-! ## Handlers (v1.1.0, the three-element schema) -/

/-- POST /new with the two generated random strings injected: validates the
url query parameter, builds the slug from the sentinel and the 5 random
characters, RPUSHes [url, key, "0"], and answers {slug, key}. -/
def createH (st : Store) (url suffix key : String) :
    HResult (String × String) × Store :=
  if url = "" then (.badRequest "missing url query parameter", st)
  else if ¬ValidateUrl url then
    (.badRequest "invalid url, please add http:// or https://", st)
  else
    let slug := "!" ++ suffix
    (.ok (slug, key), rpush st slug [url, key, "0"])

/-- POST /new of the historical v1.0.0-alpha.1: identical except that the
RPUSH writes only [url, key], with no click-count element. -/
def createOldH (st : Store) (url suffix key : String) :
    HResult (String × String) × Store :=
  if url = "" then (.badRequest "missing url query parameter", st)
  else if ¬ValidateUrl url then
    (.badRequest "invalid url, please add http:// or https://", st)
  else
    let slug := "!" ++ suffix
    (.ok (slug, key), rpush st slug [url, key])

/-- The goroutine spawned after a successful redirect lookup: read position
2, parse it leniently, LSET position 2 to the successor; on any store
failure it logs and leaves the record alone. -/
def incrClicks (st : Store) (slug : String) : Store :=
  match lindex st slug 2 with
  | none => st
  | some v =>
    match lset st slug 2 (toString (wrap64 (goAtoi v + 1))) with
    | none => st
    | some st' => st'

/-- GET /:slug: reject an empty or bare-sentinel slug, read position 0,
treat a store error or an empty string as not found, otherwise redirect and
run the click increment. -/
def resolveH (st : Store) (slug : String) : HResult String × Store :=
  if slug = "" ∨ slug = "!" then (.badRequest "missing slug", st)
  else
    match lindex st slug 0 with
    | none => (.badRequest "failed to retrieve redirect", st)
    | some v =>
      if v = "" then (.badRequest "failed to retrieve redirect", st)
      else (.ok v, incrClicks st slug)

/-- GET /clicks/:slug: after the slug and key presence checks, read position
1 and compare with the supplied key; only on a match read and answer
position 2. -/
def statsH (st : Store) (slug key : String) : HResult String × Store :=
  if slug = "" ∨ slug = "!" then (.badRequest "missing slug", st)
  else if key = "" then (.badRequest "missing key from query params", st)
  else
    match lindex st slug 1 with
    | none => (.badRequest "failed to check admin key", st)
    | some field =>
      if field ≠ key then (.unauthorized, st)
      else
        match lindex st slug 2 with
        | none => (.serverError "failed to get statistics", st)
        | some v => (.ok v, st)

/-- DELETE /:slug: after the presence checks, position 0 must exist and be
nonempty, position 1 must equal the supplied key, then the whole record is
removed. -/
def deleteH (st : Store) (slug key : String) : HResult Unit × Store :=
  if slug = "" ∨ slug = "!" then (.badRequest "missing slug", st)
  else if key = "" then (.badRequest "missing key from query params", st)
  else
    match lindex st slug 0 with
    | none => (.badRequest "failed to retrieve redirect", st)
    | some v =>
      if v = "" then (.badRequest "failed to retrieve redirect", st)
      else
        match lindex st slug 1 with
        | none => (.badRequest "failed to check admin key", st)
        | some field =>
          if field ≠ key then (.unauthorized, st)
          else (.ok (), del st slug)

/-! ## Store lemmas -/

theorem lookup_rpush_self (st : Store) (k : String) (els : List String) :
    lookup (rpush st k els) k = some ((lookup st k).getD [] ++ els) := by
  induction st with
  | nil => simp [rpush, lookup]
  | cons p rest ih =>
    obtain ⟨k', v⟩ := p
    by_cases h : k' = k
    · subst h
      simp [rpush, lookup]
    · simp [rpush, lookup, h, ih]

theorem lookup_del_self (st : Store) (k : String) :
    lookup (del st k) k = none := by
  induction st with
  | nil => rfl
  | cons p rest ih =>
    obtain ⟨k', v⟩ := p
    by_cases h : k' = k
    · subst h
      simpa [del] using ih
    · simpa [del, h, lookup] using ih

theorem lookup_setList_self (st : Store) (k : String) (l l' : List String)
    (h : lookup st k = some l) :
    lookup (setList st k l') k = some l' := by
  induction st with
  | nil => simp [lookup] at h
  | cons p rest ih =>
    obtain ⟨k', v⟩ := p
    by_cases hk : k' = k
    · subst hk
      simp [setList, lookup]
    · simp only [lookup, if_neg hk] at h
      simp [setList, lookup, hk, ih h]

theorem fst_rpush (st : Store) (k : String) (els : List String) :
    (rpush st k els).map Prod.fst =
      if (lookup st k).isSome then st.map Prod.fst
      else st.map Prod.fst ++ [k] := by
  induction st with
  | nil => simp [rpush, lookup]
  | cons p rest ih =>
    obtain ⟨k', v⟩ := p
    by_cases h : k' = k
    · subst h
      simp [rpush, lookup]
    · simp only [rpush, if_neg h, List.map_cons, lookup, ih]
      by_cases hs : (lookup rest k).isSome <;> simp [hs]

theorem lookup_eq_none_iff (st : Store) (k : String) :
    lookup st k = none ↔ k ∉ st.map Prod.fst := by
  induction st with
  | nil => simp [lookup]
  | cons p rest ih =>
    obtain ⟨k', v⟩ := p
    by_cases h : k' = k
    · subst h
      simp [lookup]
    · simp [lookup, h, ih, Ne.symm h]

theorem wfStore_rpush (st : Store) (k : String) (els : List String)
    (h : wfStore st) : wfStore (rpush st k els) := by
  unfold wfStore at h ⊢
  rw [fst_rpush]
  by_cases hs : (lookup st k).isSome
  · simpa [hs] using h
  · have hk : k ∉ st.map Prod.fst := by
      rw [← lookup_eq_none_iff]
      exact Option.not_isSome_iff_eq_none.mp hs
    simp only [hs, if_false]
    exact List.Nodup.append h (List.nodup_singleton k)
      (by simpa [List.disjoint_singleton] using hk)

/-! ## String helpers -/

theorem bang_append_data (s : String) : ("!" ++ s).data = '!' :: s.data := by
  simp [String.data_append]

theorem bang_append_ne_empty (s : String) : "!" ++ s ≠ "" := by
  intro h
  have := congrArg String.data h
  rw [bang_append_data] at this
  simp at this

theorem bang_append_ne_bang (s : String) (h : s ≠ "") : "!" ++ s ≠ "!" := by
  intro he
  have hd := congrArg String.data he
  rw [bang_append_data] at hd
  apply h
  apply String.ext
  simpa using hd

theorem validateUrl_ne_empty (s : String) (h : ValidateUrl s = true) :
    s ≠ "" := by
  intro he
  subst he
  simp [ValidateUrl, dropLit] at h

/-! ## Integer helpers -/

theorem wrap64_eq_self (z : Int) (h1 : -(2 ^ 63) ≤ z) (h2 : z < 2 ^ 63) :
    wrap64 z = z := by
  unfold wrap64
  rw [Int.emod_eq_of_lt (by omega) (by omega)]
  omega

/-! ## Claim theorems -/

/-- C5: a successful Create persists under the new slug the ordered list of
exactly the three elements [target URL, admin key, click count], with the
click count initialized to the decimal string "0". -/
theorem create_persists_triple (st : Store) (url suffix key : String)
    (hv : ValidateUrl url = true)
    (hfresh : lookup st ("!" ++ suffix) = none) :
    (createH st url suffix key).1 = HResult.ok ("!" ++ suffix, key) ∧
    lookup (createH st url suffix key).2 ("!" ++ suffix) =
      some [url, key, "0"] := by
  have hne := validateUrl_ne_empty url hv
  have hst : createH st url suffix key =
      (.ok ("!" ++ suffix, key), rpush st ("!" ++ suffix) [url, key, "0"]) := by
    simp [createH, if_neg hne, hv]
  rw [hst]
  refine ⟨rfl, ?_⟩
  rw [lookup_rpush_self, hfresh]
  rfl

theorem create_persists_triple_witness :
    ValidateUrl "http://ex.com" = true ∧
    lookup ([] : Store) ("!" ++ "aaaaa") = none ∧
    ((createH [] "http://ex.com" "aaaaa" "K").1 =
        HResult.ok ("!" ++ "aaaaa", "K") ∧
      lookup (createH [] "http://ex.com" "aaaaa" "K").2 ("!" ++ "aaaaa") =
        some ["http://ex.com", "K", "0"]) :=
  ⟨by decide, by decide,
    create_persists_triple [] "http://ex.com" "aaaaa" "K" (by decide)
      (by decide)⟩

/-- C6: Resolve of a slug for which no record exists (non-empty and not the
bare sentinel) answers the not-found failure and never a redirect. -/
theorem resolve_unknown_slug_not_found (st : Store) (slug : String)
    (h1 : slug ≠ "") (h2 : slug ≠ "!") (hfresh : lookup st slug = none) :
    resolveH st slug =
      (HResult.badRequest "failed to retrieve redirect", st) := by
  unfold resolveH
  rw [if_neg (by simp [h1, h2])]
  simp [lindex, hfresh]

theorem resolve_unknown_slug_not_found_witness :
    ("!zzzzz" : String) ≠ "" ∧ ("!zzzzz" : String) ≠ "!" ∧
    lookup ([] : Store) "!zzzzz" = none ∧
    resolveH [] "!zzzzz" =
      (HResult.badRequest "failed to retrieve redirect", []) :=
  ⟨by decide, by decide, by decide,
    resolve_unknown_slug_not_found [] "!zzzzz" (by decide) (by decide)
      (by decide)⟩

/-- C10: on a two-element record, as written by the historical Create that
omits the click count, Resolve still answers the stored target URL and the
store is left entirely unchanged: the increment goroutine aborts when the
read of position 2 fails, invisibly to the response. -/
theorem resolve_two_element_record (st : Store) (url suffix key : String)
    (hv : ValidateUrl url = true)
    (hfresh : lookup st ("!" ++ suffix) = none) (hsuf : suffix ≠ "") :
    resolveH (createOldH st url suffix key).2 ("!" ++ suffix) =
      (HResult.ok url, (createOldH st url suffix key).2) := by
  have hne := validateUrl_ne_empty url hv
  have hst : (createOldH st url suffix key).2 =
      rpush st ("!" ++ suffix) [url, key] := by
    simp [createOldH, if_neg hne, hv]
  rw [hst]
  have hlook : lookup (rpush st ("!" ++ suffix) [url, key]) ("!" ++ suffix) =
      some [url, key] := by
    rw [lookup_rpush_self, hfresh]; rfl
  unfold resolveH incrClicks
  rw [if_neg (by simp [bang_append_ne_empty, bang_append_ne_bang _ hsuf])]
  simp [lindex, hlook, hne]

theorem resolve_two_element_record_witness :
    ValidateUrl "http://ex.com" = true ∧
    lookup ([] : Store) ("!" ++ "bbbbb") = none ∧ ("bbbbb" : String) ≠ "" ∧
    resolveH (createOldH [] "http://ex.com" "bbbbb" "K").2 ("!" ++ "bbbbb") =
      (HResult.ok "http://ex.com", (createOldH [] "http://ex.com" "bbbbb" "K").2) :=
  ⟨by decide, by decide, by decide,
    resolve_two_element_record [] "http://ex.com" "bbbbb" "K" (by decide)
      (by decide) (by decide)⟩

/-- C4: Create never overwrites: RPUSH appends, so when a record already
exists under the targeted slug its target URL, admin key and counter are
still the values read at positions 0, 1 and 2 afterwards, and a store whose
slugs are unique stays that way. -/
theorem create_never_overwrites (st : Store) (url suffix key u a c : String)
    (rest : List String) (hv : ValidateUrl url = true)
    (hex : lookup st ("!" ++ suffix) = some (u :: a :: c :: rest)) :
    (lindex (createH st url suffix key).2 ("!" ++ suffix) 0 = some u ∧
      lindex (createH st url suffix key).2 ("!" ++ suffix) 1 = some a ∧
      lindex (createH st url suffix key).2 ("!" ++ suffix) 2 = some c) ∧
    (wfStore st → wfStore (createH st url suffix key).2) := by
  have hne := validateUrl_ne_empty url hv
  have hst : (createH st url suffix key).2 =
      rpush st ("!" ++ suffix) [url, key, "0"] := by
    simp [createH, if_neg hne, hv]
  rw [hst]
  constructor
  · have hlook : lookup (rpush st ("!" ++ suffix) [url, key, "0"])
        ("!" ++ suffix) = some (u :: a :: c :: (rest ++ [url, key, "0"])) := by
      rw [lookup_rpush_self, hex]
      simp
    refine ⟨?_, ?_, ?_⟩ <;> simp [lindex, hlook]
  · exact fun h => wfStore_rpush st _ _ h

theorem create_never_overwrites_witness :
    ValidateUrl "http://ex.com" = true ∧
    lookup [(("!" ++ "ccccc" : String), ["http://old.org", "A", "7"])]
      ("!" ++ "ccccc") = some ["http://old.org", "A", "7"] ∧
    ((lindex (createH [(("!" ++ "ccccc" : String), ["http://old.org", "A", "7"])]
          "http://ex.com" "ccccc" "K").2 ("!" ++ "ccccc") 0 = some "http://old.org" ∧
       lindex (createH [(("!" ++ "ccccc" : String), ["http://old.org", "A", "7"])]
          "http://ex.com" "ccccc" "K").2 ("!" ++ "ccccc") 1 = some "A" ∧
       lindex (createH [(("!" ++ "ccccc" : String), ["http://old.org", "A", "7"])]
          "http://ex.com" "ccccc" "K").2 ("!" ++ "ccccc") 2 = some "7") ∧
      (wfStore [(("!" ++ "ccccc" : String), ["http://old.org", "A", "7"])] →
        wfStore (createH [(("!" ++ "ccccc" : String), ["http://old.org", "A", "7"])]
          "http://ex.com" "ccccc" "K").2)) :=
  ⟨by decide, by decide,
    create_never_overwrites
      [(("!" ++ "ccccc" : String), ["http://old.org", "A", "7"])]
      "http://ex.com" "ccccc" "K" "http://old.org" "A" "7" [] (by decide)
      (by decide)⟩

/-- C1: for a URL accepted by the validator, Create on a fresh slug followed
immediately by Resolve of the returned slug answers exactly that URL as the
redirect target. -/
theorem create_resolve_roundtrip (st : Store) (url suffix key : String)
    (hv : ValidateUrl url = true)
    (hfresh : lookup st ("!" ++ suffix) = none) (hsuf : suffix ≠ "") :
    (createH st url suffix key).1 = HResult.ok ("!" ++ suffix, key) ∧
    (resolveH (createH st url suffix key).2 ("!" ++ suffix)).1 =
      HResult.ok url := by
  have hne := validateUrl_ne_empty url hv
  obtain ⟨hres, hlook⟩ := create_persists_triple st url suffix key hv hfresh
  refine ⟨hres, ?_⟩
  unfold resolveH
  rw [if_neg (by simp [bang_append_ne_empty, bang_append_ne_bang _ hsuf])]
  simp [lindex, hlook, if_neg hne]

theorem create_resolve_roundtrip_witness :
    ValidateUrl "https://sub.ex.com" = true ∧
    lookup ([] : Store) ("!" ++ "ddddd") = none ∧ ("ddddd" : String) ≠ "" ∧
    ((createH [] "https://sub.ex.com" "ddddd" "K").1 =
        HResult.ok ("!" ++ "ddddd", "K") ∧
      (resolveH (createH [] "https://sub.ex.com" "ddddd" "K").2
          ("!" ++ "ddddd")).1 = HResult.ok "https://sub.ex.com") :=
  ⟨by decide, by decide, by decide,
    create_resolve_roundtrip [] "https://sub.ex.com" "ddddd" "K" (by decide)
      (by decide) (by decide)⟩

/-- C2: on an existing record, Delete with a supplied key different from the
stored admin key answers Unauthorized and leaves the store untouched, so a
subsequent Resolve still answers the target URL; Delete with the exact
stored admin key removes the record, so a subsequent Resolve fails with the
not-found error. -/
theorem delete_requires_admin_key (st : Store) (slug u a k : String)
    (rest : List String) (h1 : slug ≠ "") (h2 : slug ≠ "!") (hu : u ≠ "")
    (hrec : lookup st slug = some (u :: a :: rest)) (hk : k ≠ "") :
    (k ≠ a →
      deleteH st slug k = (HResult.unauthorized, st) ∧
      (resolveH st slug).1 = HResult.ok u) ∧
    (k = a →
      deleteH st slug k = (HResult.ok (), del st slug) ∧
      (resolveH (del st slug) slug).1 =
        HResult.badRequest "failed to retrieve redirect") := by
  have hres : (resolveH st slug).1 = HResult.ok u := by
    unfold resolveH
    rw [if_neg (by simp [h1, h2])]
    simp [lindex, hrec, hu]
  constructor
  · intro hne
    refine ⟨?_, hres⟩
    unfold deleteH
    rw [if_neg (by simp [h1, h2]), if_neg hk]
    simp [lindex, hrec, hu, Ne.symm hne]
  · intro heq
    subst heq
    refine ⟨?_, ?_⟩
    · unfold deleteH
      rw [if_neg (by simp [h1, h2]), if_neg hk]
      simp [lindex, hrec, hu]
    · rw [resolve_unknown_slug_not_found (del st slug) slug h1 h2
        (lookup_del_self st slug)]

theorem delete_requires_admin_key_witness :
    (("!eeeee" : String) ≠ "" ∧ ("!eeeee" : String) ≠ "!" ∧
      ("http://ex.com" : String) ≠ "" ∧
      lookup [(("!eeeee" : String), ["http://ex.com", "Adm", "3"])] "!eeeee" =
        some ["http://ex.com", "Adm", "3"]) ∧
    (deleteH [(("!eeeee" : String), ["http://ex.com", "Adm", "3"])] "!eeeee" "bad" =
        (HResult.unauthorized, [(("!eeeee" : String), ["http://ex.com", "Adm", "3"])]) ∧
      (resolveH [(("!eeeee" : String), ["http://ex.com", "Adm", "3"])] "!eeeee").1 =
        HResult.ok "http://ex.com") ∧
    (deleteH [(("!eeeee" : String), ["http://ex.com", "Adm", "3"])] "!eeeee" "Adm" =
        (HResult.ok (), del [(("!eeeee" : String), ["http://ex.com", "Adm", "3"])] "!eeeee") ∧
      (resolveH (del [(("!eeeee" : String), ["http://ex.com", "Adm", "3"])] "!eeeee")
          "!eeeee").1 = HResult.badRequest "failed to retrieve redirect") :=
  ⟨⟨by decide, by decide, by decide, by decide⟩,
    (delete_requires_admin_key
      [(("!eeeee" : String), ["http://ex.com", "Adm", "3"])] "!eeeee"
      "http://ex.com" "Adm" "bad" ["3"] (by decide) (by decide) (by decide)
      (by decide) (by decide)).1 (by decide),
    (delete_requires_admin_key
      [(("!eeeee" : String), ["http://ex.com", "Adm", "3"])] "!eeeee"
      "http://ex.com" "Adm" "Adm" ["3"] (by decide) (by decide) (by decide)
      (by decide) (by decide)).2 rfl⟩

/-- C3: on an existing record, Stats with a supplied key different from the
stored admin key answers the bare Unauthorized error, whatever the counter
position holds: the result carries no counter value and does not depend on
anything stored beyond position 1, so the counter is only consulted after
the key comparison succeeds. -/
theorem stats_wrong_key_unauthorized (st : Store) (slug u a k : String)
    (rest : List String) (h1 : slug ≠ "") (h2 : slug ≠ "!")
    (hrec : lookup st slug = some (u :: a :: rest)) (hk : k ≠ "")
    (hne : k ≠ a) :
    statsH st slug k = (HResult.unauthorized, st) := by
  unfold statsH
  rw [if_neg (by simp [h1, h2]), if_neg hk]
  simp [lindex, hrec, Ne.symm hne]

theorem stats_wrong_key_unauthorized_witness :
    ("!fffff" : String) ≠ "" ∧ ("!fffff" : String) ≠ "!" ∧
    lookup [(("!fffff" : String), ["http://ex.com", "Adm", "9"])] "!fffff" =
      some ["http://ex.com", "Adm", "9"] ∧
    ("bad" : String) ≠ "" ∧ ("bad" : String) ≠ "Adm" ∧
    statsH [(("!fffff" : String), ["http://ex.com", "Adm", "9"])] "!fffff" "bad" =
      (HResult.unauthorized, [(("!fffff" : String), ["http://ex.com", "Adm", "9"])]) :=
  ⟨by decide, by decide, by decide, by decide, by decide,
    stats_wrong_key_unauthorized
      [(("!fffff" : String), ["http://ex.com", "Adm", "9"])] "!fffff"
      "http://ex.com" "Adm" "bad" ["9"] (by decide) (by decide) (by decide)
      (by decide) (by decide)⟩

/-- C9: the click counter is modified only by Resolve and only after a
successful redirect lookup: Stats never changes the store, Resolve leaves
the store untouched unless it answers a redirect, and a successful Resolve
of a record whose position 2 denotes the count c rewrites it to the decimal
string of c + 1. -/
theorem counter_only_resolve_increments :
    (∀ st slug key, (statsH st slug key).2 = st) ∧
    (∀ st slug,
      (∃ u, (resolveH st slug).1 = HResult.ok u) ∨ (resolveH st slug).2 = st) ∧
    (∀ st slug u a v rest (c : Int), slug ≠ "" → slug ≠ "!" → u ≠ "" →
      lookup st slug = some (u :: a :: v :: rest) →
      goAtoi v = c → 0 ≤ c → c + 1 < 2 ^ 63 →
      (resolveH st slug).1 = HResult.ok u ∧
      lindex (resolveH st slug).2 slug 2 = some (toString (c + 1))) := by
  refine ⟨?_, ?_, ?_⟩
  · intro st slug key
    unfold statsH
    split
    · rfl
    split
    · rfl
    rcases lindex st slug 1 with _ | field
    · rfl
    simp only
    split
    · rfl
    rcases lindex st slug 2 with _ | v <;> rfl
  · intro st slug
    unfold resolveH
    split
    · right; rfl
    rcases h0 : lindex st slug 0 with _ | v
    · right; rfl
    simp only
    split
    · right; rfl
    · exact Or.inl ⟨v, rfl⟩
  · intro st slug u a v rest c h1 h2 hu hrec hc hc0 hlt
    have hwrap : wrap64 (goAtoi v + 1) = c + 1 := by
      rw [hc]; exact wrap64_eq_self _ (by omega) hlt
    have hset : lset st slug 2 (toString (wrap64 (goAtoi v + 1))) =
        some (setList st slug ((u :: a :: v :: rest).set 2 (toString (c + 1)))) := by
      rw [hwrap]
      unfold lset
      rw [hrec]
      simp
    have hl0 : lindex st slug 0 = some u := by simp [lindex, hrec]
    have hl2 : lindex st slug 2 = some v := by simp [lindex, hrec]
    have hres : resolveH st slug = (HResult.ok u, incrClicks st slug) := by
      unfold resolveH
      rw [if_neg (by simp [h1, h2]), hl0]
      simp [hu]
    have hsetc : (u :: a :: v :: rest).set 2 (toString (c + 1)) =
        u :: a :: toString (c + 1) :: rest := rfl
    have hincr : incrClicks st slug =
        setList st slug (u :: a :: toString (c + 1) :: rest) := by
      unfold incrClicks
      rw [hl2]
      simp only [hset, hsetc]
    rw [hres, hincr]
    refine ⟨rfl, ?_⟩
    have hl := lookup_setList_self st slug (u :: a :: v :: rest)
      (u :: a :: toString (c + 1) :: rest) hrec
    simp [lindex, hl]

/-! ## Characterizing the validator -/

theorem dropLit_eq_some (cs lit rest : List Char) :
    dropLit cs lit = some rest ↔ cs = lit ++ rest := by
  induction lit generalizing cs with
  | nil =>
    simp [dropLit]
  | cons l ls ih =>
    cases cs with
    | nil => simp [dropLit]
    | cons c cs' =>
      by_cases h : c = l
      · subst h
        simp [dropLit, ih]
      · simp [dropLit, h]

theorem hostTldMatch_iff (cs : List Char) :
    hostTldMatch cs = true ↔
      ∃ host tld : List Char, cs = host ++ '.' :: tld ∧ host ≠ [] ∧
        host.all isHostChar = true ∧ 2 ≤ tld.length ∧
        tld.all isTldChar = true := by
  unfold hostTldMatch
  rw [List.any_eq_true]
  constructor
  · rintro ⟨i, hi, hsplit⟩
    rw [List.mem_range] at hi
    unfold dotSplitAt at hsplit
    simp only [Bool.and_eq_true, decide_eq_true_eq] at hsplit
    obtain ⟨⟨⟨⟨hdot, hpos⟩, hhost⟩, hlen⟩, htld⟩ := hsplit
    refine ⟨cs.take i, cs.drop (i + 1), ?_, ?_, hhost, ?_, htld⟩
    · have hstep : cs.drop i = cs[i] :: cs.drop (i + 1) :=
        List.drop_eq_getElem_cons hi
      have hget : cs[i] = '.' := by
        rw [List.getElem?_eq_getElem hi] at hdot
        exact Option.some.inj hdot
      calc cs = cs.take i ++ cs.drop i := (List.take_append_drop i cs).symm
        _ = cs.take i ++ '.' :: cs.drop (i + 1) := by rw [hstep, hget]
    · have hl : (cs.take i).length = i := by
        rw [List.length_take]
        omega
      intro h
      rw [h] at hl
      simp at hl
      omega
    · rw [List.length_drop]
      exact hlen
  · rintro ⟨host, tld, hcs, hne, hhost, hlen, htld⟩
    have hhl : 0 < host.length := List.length_pos.mpr hne
    refine ⟨host.length, ?_, ?_⟩
    · rw [List.mem_range, hcs]
      simp only [List.length_append, List.length_cons]
      omega
    · unfold dotSplitAt
      simp only [Bool.and_eq_true, decide_eq_true_eq]
      subst hcs
      refine ⟨⟨⟨⟨?_, hhl⟩, ?_⟩, ?_⟩, ?_⟩
      · rw [List.getElem?_append_right (Nat.le_refl _)]
        simp
      · rw [List.take_left]
        exact hhost
      · simp only [List.length_append, List.length_cons]
        omega
      · have hd : (host ++ '.' :: tld).drop (host.length + 1) = tld := by
          rw [← List.drop_drop, List.drop_left]
          rfl
        rw [hd]
        exact htld

theorem scheme_branch_iff (cs lit : List Char) :
    (match dropLit cs lit with
     | some rest => hostTldMatch rest
     | none => false) = true ↔
      ∃ host tld : List Char, cs = lit ++ (host ++ '.' :: tld) ∧ host ≠ [] ∧
        host.all isHostChar = true ∧ 2 ≤ tld.length ∧
        tld.all isTldChar = true := by
  rcases h : dropLit cs lit with _ | rest
  · simp only [Bool.false_eq_true, false_iff]
    rintro ⟨host, tld, hcs, _⟩
    have hsome := (dropLit_eq_some cs lit (host ++ '.' :: tld)).mpr hcs
    rw [h] at hsome
    exact Option.noConfusion hsome
  · simp only
    rw [hostTldMatch_iff]
    have hcs := (dropLit_eq_some cs lit rest).mp h
    constructor
    · rintro ⟨host, tld, hrest, h1, h2, h3, h4⟩
      exact ⟨host, tld, by rw [hcs, hrest], h1, h2, h3, h4⟩
    · rintro ⟨host, tld, hcs2, h1, h2, h3, h4⟩
      refine ⟨host, tld, ?_, h1, h2, h3, h4⟩
      exact List.append_cancel_left (hcs.symm.trans hcs2)

theorem scheme_append_data (lit host tld : String) :
    (lit ++ host ++ "." ++ tld).data =
      lit.data ++ (host.data ++ '.' :: tld.data) := by
  rw [String.data_append, String.data_append, String.data_append]
  have hdot : ("." : String).data = ['.'] := rfl
  rw [hdot]
  simp [List.append_assoc]

/-- C7: ValidateUrl accepts exactly the strings built from the scheme http
or https, the literal ://, a nonempty host over alphanumerics, hyphens and
dots, a dot, and a top-level label of at least two letters, with nothing
after it.  Paths, queries and ports are excluded because '/', '?' and ':'
belong to neither character class. -/
theorem validateUrl_characterization (s : String) :
    ValidateUrl s = true ↔
      ∃ host tld : String,
        (s = "http://" ++ host ++ "." ++ tld ∨
          s = "https://" ++ host ++ "." ++ tld) ∧
        host ≠ "" ∧ (∀ c ∈ host.data, isHostChar c = true) ∧
        2 ≤ tld.length ∧ (∀ c ∈ tld.data, isTldChar c = true) := by
  unfold ValidateUrl
  rw [Bool.or_eq_true, scheme_branch_iff, scheme_branch_iff]
  constructor
  · rintro (⟨host, tld, hcs, h1, h2, h3, h4⟩ | ⟨host, tld, hcs, h1, h2, h3, h4⟩)
    · refine ⟨String.mk host, String.mk tld, Or.inl ?_, ?_, ?_, ?_, ?_⟩
      · apply String.ext
        rw [scheme_append_data]
        exact hcs
      · exact fun h => h1 (congrArg String.data h)
      · exact List.all_eq_true.mp h2
      · rw [String.length_mk]
        exact h3
      · exact List.all_eq_true.mp h4
    · refine ⟨String.mk host, String.mk tld, Or.inr ?_, ?_, ?_, ?_, ?_⟩
      · apply String.ext
        rw [scheme_append_data]
        exact hcs
      · exact fun h => h1 (congrArg String.data h)
      · exact List.all_eq_true.mp h2
      · rw [String.length_mk]
        exact h3
      · exact List.all_eq_true.mp h4
  · rintro ⟨host, tld, hor, h1, h2, h3, h4⟩
    have hhost : host.data ≠ [] := fun h => h1 (String.ext h)
    rcases hor with hcs | hcs
    · left
      refine ⟨host.data, tld.data, ?_, hhost, List.all_eq_true.mpr h2, h3,
        List.all_eq_true.mpr h4⟩
      have hd := congrArg String.data hcs
      rw [scheme_append_data] at hd
      exact hd
    · right
      refine ⟨host.data, tld.data, ?_, hhost, List.all_eq_true.mpr h2, h3,
        List.all_eq_true.mpr h4⟩
      have hd := congrArg String.data hcs
      rw [scheme_append_data] at hd
      exact hd

/-- C8: every slug built by Create from 5 injected random bytes starts with
the sentinel and its remainder has exactly 5 characters of the 62-character
alphabet, and every admin key built from 64 injected random bytes has
exactly 64 characters of that alphabet; the length-5 and length-64 byte
lists quantify over every possible successful RandStr(5) and RandStr(64)
output. -/
theorem randstr_slug_key_format (bs5 bs64 : List Nat)
    (h5 : bs5.length = 5) (h64 : bs64.length = 64) :
    ("!" ++ RandStr bs5).data.head? = some '!' ∧
    ("!" ++ RandStr bs5).data.tail.length = 5 ∧
    ("!" ++ RandStr bs5).data.tail.all chars.contains = true ∧
    (RandStr bs64).length = 64 ∧
    (RandStr bs64).data.all chars.contains = true := by
  have hmem : ∀ bs : List Nat, (RandStr bs).data.all chars.contains = true := by
    intro bs
    rw [List.all_eq_true]
    intro c hc
    have hm : c ∈ bs.map randChar := hc
    rw [List.mem_map] at hm
    obtain ⟨b, _, hb⟩ := hm
    rw [List.elem_iff, ← hb]
    exact List.get_mem _ _ _
  have hlen : ∀ bs : List Nat, (RandStr bs).length = bs.length := by
    intro bs
    rw [RandStr, String.length_mk, List.length_map]
  have hdata : ("!" ++ RandStr bs5).data = '!' :: bs5.map randChar := by
    rw [bang_append_data]
    rfl
  refine ⟨?_, ?_, ?_, (hlen bs64).trans h64, hmem bs64⟩
  · rw [hdata]
    rfl
  · rw [hdata]
    simp [h5]
  · rw [hdata]
    exact hmem bs5

theorem randstr_slug_key_format_witness :
    ([0, 1, 2, 3, 4] : List Nat).length = 5 ∧
    (List.range 64).length = 64 ∧
    (("!" ++ RandStr [0, 1, 2, 3, 4]).data.head? = some '!' ∧
      ("!" ++ RandStr [0, 1, 2, 3, 4]).data.tail.length = 5 ∧
      ("!" ++ RandStr [0, 1, 2, 3, 4]).data.tail.all chars.contains = true ∧
      (RandStr (List.range 64)).length = 64 ∧
      (RandStr (List.range 64)).data.all chars.contains = true) :=
  ⟨by decide, by decide,
    randstr_slug_key_format [0, 1, 2, 3, 4] (List.range 64) (by decide)
      (by decide)⟩

theorem counter_only_resolve_increments_witness :
    ((statsH [(("!ggggg" : String), ["http://ex.com", "Adm", "4"])] "!ggggg"
        "Adm").2 = [(("!ggggg" : String), ["http://ex.com", "Adm", "4"])]) ∧
    ((∃ u, (resolveH ([] : Store) "!nores").1 = HResult.ok u) ∨
      (resolveH ([] : Store) "!nores").2 = ([] : Store)) ∧
    (("!ggggg" : String) ≠ "" ∧ ("!ggggg" : String) ≠ "!" ∧
      ("http://ex.com" : String) ≠ "" ∧
      lookup [(("!ggggg" : String), ["http://ex.com", "Adm", "4"])] "!ggggg" =
        some ["http://ex.com", "Adm", "4"] ∧
      goAtoi "4" = 4 ∧ (0 : Int) ≤ 4 ∧ (4 : Int) + 1 < 2 ^ 63 ∧
      ((resolveH [(("!ggggg" : String), ["http://ex.com", "Adm", "4"])]
          "!ggggg").1 = HResult.ok "http://ex.com" ∧
        lindex (resolveH [(("!ggggg" : String), ["http://ex.com", "Adm", "4"])]
            "!ggggg").2 "!ggggg" 2 = some (toString ((4 : Int) + 1)))) :=
  ⟨counter_only_resolve_increments.1 _ _ _,
    counter_only_resolve_increments.2.1 _ _,
    by decide, by decide, by decide, by decide, by decide, by decide, by decide,
    counter_only_resolve_increments.2.2 _ "!ggggg" "http://ex.com" "Adm" "4" []
      4 (by decide) (by decide) (by decide) (by decide) (by decide) (by decide)
      (by decide)⟩

end Bang
